import Mathlib

/-!
Verification development for the foodnearme dashboard (src/food_app.py).

The file embeds, as executable Lean definitions, the pieces of the program
that carry testable logic: the opening-hours evaluator (is_open_now), the
multi-category place aggregator (get_nearby_food_places), the review
selector, the row builder price/type formatting, and the filter/sort
pipeline steps of main.  Theorems after the definitions settle the
specification claims against these embeddings.
-/

namespace FoodApp

/-- Open/Closed/Unknown classification, the three string verdicts
returned by is_open_now in the source. -/
inductive OpenStatus where
  | Open
  | Closed
  | Unknown
deriving DecidableEq, Repr

/-- A weekly opening period as the evaluator consumes it once the raw
fields are decoded: day of week, opening minute of day, and an optional
closing minute of day (the source checks whether the close key exists). -/
structure WeeklyPeriod where
  day : Int
  openMin : Int
  closeMin : Option Int
deriving DecidableEq, Repr

/-- Does one period grant Open at the given instant?  Mirrors the body of
the loop in is_open_now: the day must match, then with a close time the
test is openMin <= m < closeMin, without one it is m >= openMin. -/
def periodMatches (p : WeeklyPeriod) (day minutes : Int) : Bool :=
  p.day == day &&
    match p.closeMin with
    | some c => decide (p.openMin ≤ minutes) && decide (minutes < c)
    | none => decide (minutes ≥ p.openMin)

/-- Scan of the period list in is_open_now: the first matching period
returns Open immediately; an exhausted scan returns Closed. -/
def scanPeriods (day minutes : Int) : List WeeklyPeriod → OpenStatus
  | [] => .Closed
  | p :: rest =>
    if periodMatches p day minutes then .Open else scanPeriods day minutes rest

/-- Structured embedding of is_open_now.  The argument none stands for a
schedule value that is falsy or has no periods key (the guard at the top
of the source function); some ps is a schedule whose periods decode to
ps. -/
def is_open_now (sched : Option (List WeeklyPeriod)) (day minutes : Int) :
    OpenStatus :=
  match sched with
  | none => .Unknown
  | some ps => scanPeriods day minutes ps

/-- A Python-level value as it can reach is_open_now: None, an int, a
string, a list, or a string-keyed dict.  This is the shape space of the
opening_hours argument and of everything inside it. -/
inductive PyVal where
  | pyNone
  | int : Int → PyVal
  | str : String → PyVal
  | list : List PyVal → PyVal
  | dict : List (String × PyVal) → PyVal

/-- The exceptions the body of is_open_now can raise: KeyError from a
missing dict key, TypeError from an operation on the wrong shape,
ValueError from int() on a non-numeric string. -/
inductive PyErr where
  | keyError
  | typeError
  | valueError
deriving DecidableEq, Repr

/-- First value bound to a key in an association list, as a Python dict
lookup sees it. -/
def lookupStr : List (String × PyVal) → String → Option PyVal
  | [], _ => none
  | (k, v) :: rest, key => if k = key then some v else lookupStr rest key

/-- Python truthiness of a value: None, 0, empty string and empty
containers are falsy. -/
def truthy : PyVal → Bool
  | .pyNone => false
  | .int n => n != 0
  | .str s => s != ""
  | .list l => !l.isEmpty
  | .dict kvs => !kvs.isEmpty

/-- Is the first character list a prefix of the second. -/
def charsPrefix : List Char → List Char → Bool
  | [], _ => true
  | _ :: _, [] => false
  | a :: as, b :: bs => a == b && charsPrefix as bs

/-- Does the needle occur contiguously inside the haystack. -/
def charsContain (needle : List Char) : List Char → Bool
  | [] => needle.isEmpty
  | b :: bs => charsPrefix needle (b :: bs) || charsContain needle bs

/-- Python equality of a value against a string, as used by list
membership: only an equal string compares equal. -/
def pyEqStr (v : PyVal) (key : String) : Bool :=
  match v with
  | .str s => s == key
  | _ => false

/-- Python key in x: key membership for a dict, element equality for a
list, substring test for a string, TypeError otherwise. -/
def pyContains (x : PyVal) (key : String) : Except PyErr Bool :=
  match x with
  | .dict kvs => .ok (lookupStr kvs key).isSome
  | .list l => .ok (l.any (fun v => pyEqStr v key))
  | .str s => .ok (charsContain key.data s.data)
  | _ => .error .typeError

/-- Python x[key] with a string key: dict lookup (KeyError when the key
is missing); a list or string subscripted by a string, or any
non-subscriptable value, raises TypeError. -/
def getItemStr (x : PyVal) (key : String) : Except PyErr PyVal :=
  match x with
  | .dict kvs =>
    match lookupStr kvs key with
    | some v => .ok v
    | none => .error .keyError
  | _ => .error .typeError

/-- Python iteration over a value: a list yields its elements, a dict its
keys, a string its one-character substrings; anything else raises
TypeError. -/
def toIter : PyVal → Except PyErr (List PyVal)
  | .list l => .ok l
  | .dict kvs => .ok (kvs.map (fun kv => .str kv.1))
  | .str s => .ok (s.data.map (fun c => .str (String.mk [c])))
  | _ => .error .typeError

/-- Python equality of a value against an int: only an equal int compares
equal (comparison never raises). -/
def pyEqInt (v : PyVal) (n : Int) : Bool :=
  match v with
  | .int m => m == n
  | _ => false

/-- Python s[:2] on a string. -/
def sTake2 (s : String) : String := String.mk (s.data.take 2)

/-- Python s[2:] on a string. -/
def sDrop2 (s : String) : String := String.mk (s.data.drop 2)

/-- Python x[:2]: total slicing for strings and lists, TypeError for
unsliceable values. -/
def pySliceTake2 : PyVal → Except PyErr PyVal
  | .str s => .ok (.str (sTake2 s))
  | .list l => .ok (.list (l.take 2))
  | _ => .error .typeError

/-- Python x[2:]. -/
def pySliceDrop2 : PyVal → Except PyErr PyVal
  | .str s => .ok (.str (sDrop2 s))
  | .list l => .ok (.list (l.drop 2))
  | _ => .error .typeError

/-- Numeric value of a digit string. -/
def digitsVal (cs : List Char) : Nat :=
  cs.foldl (fun a c => a * 10 + (c.toNat - 48)) 0

/-- Strip leading and trailing whitespace from a character list. -/
def stripChars (cs : List Char) : List Char :=
  ((cs.dropWhile Char.isWhitespace).reverse.dropWhile Char.isWhitespace).reverse

/-- Python int(s) on a string: strip whitespace, allow one sign, then a
nonempty run of digits; anything else raises ValueError. -/
def parseIntStr (s : String) : Except PyErr Int :=
  match stripChars s.data with
  | '-' :: rest =>
    if !rest.isEmpty && rest.all Char.isDigit then .ok (-(digitsVal rest : Int))
    else .error .valueError
  | '+' :: rest =>
    if !rest.isEmpty && rest.all Char.isDigit then .ok (digitsVal rest)
    else .error .valueError
  | cs =>
    if !cs.isEmpty && cs.all Char.isDigit then .ok (digitsVal cs)
    else .error .valueError

/-- Python int(x): an int passes through, a string is parsed, other
shapes raise TypeError. -/
def pyToInt : PyVal → Except PyErr Int
  | .int n => .ok n
  | .str s => parseIntStr s
  | _ => .error .typeError

/-- Embedding of int(t[:2]) * 60 + int(t[2:]), the conversion of an HHMM
time field to minutes used twice in is_open_now. -/
def timeToMin (t : PyVal) : Except PyErr Int :=
  match pySliceTake2 t with
  | .error e => .error e
  | .ok a =>
    match pyToInt a with
    | .error e => .error e
    | .ok h =>
      match pySliceDrop2 t with
      | .error e => .error e
      | .ok b =>
        match pyToInt b with
        | .error e => .error e
        | .ok m => .ok (h * 60 + m)

/-- The period loop of is_open_now over raw values: for each period whose
open day equals the current day, compute the open minute, then branch on
the presence of a close entry exactly as the source does; the first
period that covers the instant returns Open, an exhausted loop returns
Closed, and any shape or parse failure propagates as the corresponding
exception. -/
def goPeriods (cd cm : Int) : List PyVal → Except PyErr String
  | [] => .ok "Closed"
  | period :: rest =>
    match getItemStr period "open" with
    | .error e => .error e
    | .ok o =>
      match getItemStr o "day" with
      | .error e => .error e
      | .ok d =>
        if pyEqInt d cd then
          match getItemStr o "time" with
          | .error e => .error e
          | .ok t =>
            match timeToMin t with
            | .error e => .error e
            | .ok ot =>
              match pyContains period "close" with
              | .error e => .error e
              | .ok true =>
                match getItemStr period "close" with
                | .error e => .error e
                | .ok c =>
                  match getItemStr c "time" with
                  | .error e => .error e
                  | .ok tc =>
                    match timeToMin tc with
                    | .error e => .error e
                    | .ok ct =>
                      if ot ≤ cm ∧ cm < ct then .ok "Open"
                      else goPeriods cd cm rest
              | .ok false =>
                if cm ≥ ot then .ok "Open" else goPeriods cd cm rest
        else goPeriods cd cm rest

/-- Raw embedding of is_open_now over Python-shaped data.  The current
day and minute stand for the Singapore-resolved clock reading the source
computes before the loop; the guard returns Unknown when the schedule is
falsy or has no periods key, otherwise the periods value is iterated. -/
def is_open_now_raw (oh : PyVal) (cd cm : Int) : Except PyErr String :=
  if truthy oh = false then .ok "Unknown"
  else
    match pyContains oh "periods" with
    | .error e => .error e
    | .ok false => .ok "Unknown"
    | .ok true =>
      match getItemStr oh "periods" with
      | .error e => .error e
      | .ok pv =>
        match toIter pv with
        | .error e => .error e
        | .ok items => goPeriods cd cm items

theorem scanPeriods_eq_open_iff (day minutes : Int) (ps : List WeeklyPeriod) :
    scanPeriods day minutes ps = .Open ↔
      ∃ p ∈ ps, periodMatches p day minutes = true := by
  induction ps with
  | nil => simp [scanPeriods]
  | cons p rest ih =>
    by_cases h : periodMatches p day minutes = true
    · simp [scanPeriods, h]
    · simp [scanPeriods, h, ih]

theorem scanPeriods_ne_unknown (day minutes : Int) (ps : List WeeklyPeriod) :
    scanPeriods day minutes ps ≠ .Unknown := by
  induction ps with
  | nil => simp [scanPeriods]
  | cons p rest ih =>
    by_cases h : periodMatches p day minutes = true <;> simp [scanPeriods, h, ih]

/-- C2: over a present schedule, the evaluator answers Open exactly when
some same-day period covers the instant; with at least one same-day
period and no covering one it answers Closed; a Closed answer certifies
that every period was scanned and none covered the instant; and a
covering period at the head yields Open whatever the tail holds (the
first match returns immediately). -/
theorem is_open_now_spec (ps : List WeeklyPeriod) (day minutes : Int)
    (hd0 : 0 ≤ day) (hd : day ≤ 6) (hm0 : 0 ≤ minutes) (hm : minutes ≤ 1439) :
    (is_open_now (some ps) day minutes = .Open ↔
        ∃ p ∈ ps, periodMatches p day minutes = true) ∧
      ((∃ p ∈ ps, p.day = day) →
        (∀ p ∈ ps, periodMatches p day minutes = false) →
          is_open_now (some ps) day minutes = .Closed) ∧
      (is_open_now (some ps) day minutes = .Closed →
        ∀ p ∈ ps, periodMatches p day minutes = false) ∧
      (∀ p rest, periodMatches p day minutes = true →
        is_open_now (some (p :: rest)) day minutes = .Open) := by
  refine ⟨scanPeriods_eq_open_iff day minutes ps, ?_, ?_, ?_⟩
  · intro _ hnone
    have hopen : scanPeriods day minutes ps ≠ .Open := by
      rw [Ne, scanPeriods_eq_open_iff]
      rintro ⟨p, hp, hmatch⟩
      exact absurd hmatch (by simp [hnone p hp])
    have hunk := scanPeriods_ne_unknown day minutes ps
    cases h : scanPeriods day minutes ps with
    | Open => exact absurd h hopen
    | Closed => simpa [is_open_now] using h
    | Unknown => exact absurd h hunk
  · intro hclosed p hp
    by_contra hne
    have hmatch : periodMatches p day minutes = true := by
      cases hb : periodMatches p day minutes with
      | false => exact absurd hb hne
      | true => rfl
    have : is_open_now (some ps) day minutes = .Open :=
      (scanPeriods_eq_open_iff day minutes ps).mpr ⟨p, hp, hmatch⟩
    rw [hclosed] at this
    exact OpenStatus.noConfusion this
  · intro p rest hmatch
    simp [is_open_now, scanPeriods, hmatch]

/-- Witness for is_open_now_spec at the concrete schedule of section 8 of
the specification: one period day 2, open 540, close 1080, queried on
day 2 at minute 600. -/
theorem is_open_now_spec_witness :
    is_open_now (some [⟨2, 540, some 1080⟩]) 2 600 = .Open :=
  ((is_open_now_spec [⟨2, 540, some 1080⟩] 2 600 (by decide) (by decide)
      (by decide) (by decide)).1).mpr ⟨⟨2, 540, some 1080⟩, by decide, by decide⟩

/-- C1 counterexample: a present schedule whose periods list is the empty
list makes the evaluator answer Closed, not the Unknown the claim
demands (the guard only catches a falsy schedule or a missing periods
key, and the loop over zero periods falls through to Closed). -/
theorem empty_periods_closed_cex :
    is_open_now_raw (.dict [("periods", .list [])]) 2 600 = .ok "Closed" :=
  rfl

/-- C1 amended: the evaluator answers Unknown exactly for a falsy
schedule value or one without a periods key; a present schedule whose
periods list is empty is answered Closed. -/
theorem unknown_guard_spec (oh : PyVal) (cd cm : Int) :
    (truthy oh = false → is_open_now_raw oh cd cm = .ok "Unknown") ∧
      (pyContains oh "periods" = .ok false →
        is_open_now_raw oh cd cm = .ok "Unknown") ∧
      is_open_now_raw (.dict [("periods", .list [])]) cd cm = .ok "Closed" := by
  refine ⟨fun h => by simp [is_open_now_raw, h], fun h => ?_, rfl⟩
  by_cases ht : truthy oh = false
  · simp [is_open_now_raw, ht]
  · simp [is_open_now_raw, ht, h]

/-- Witness for unknown_guard_spec: an empty dict is falsy and answered
Unknown, a dict with only other keys lacks the periods key and is
answered Unknown, and an empty periods list is answered Closed. -/
theorem unknown_guard_spec_witness :
    is_open_now_raw (.dict []) 0 0 = .ok "Unknown" ∧
      is_open_now_raw (.dict [("weekday_text", .list [])]) 0 0 = .ok "Unknown" ∧
      is_open_now_raw (.dict [("periods", .list [])]) 0 0 = .ok "Closed" :=
  ⟨(unknown_guard_spec (.dict []) 0 0).1 rfl,
    (unknown_guard_spec (.dict [("weekday_text", .list [])]) 0 0).2.1 rfl,
    (unknown_guard_spec (.dict []) 0 0).2.2⟩

/-- A schedule whose single same-day period carries a non-numeric time
string; int() on its first two characters raises ValueError in the
source. -/
def badSchedule : PyVal :=
  .dict [("periods",
    .list [.dict [("open", .dict [("day", .int 2), ("time", .str "abcd")])]])]

/-- C6 counterexample: on a malformed period the evaluator does not
absorb the damage into Unknown; it raises (here ValueError from int on a
non-numeric time string), so it returns no status at all. -/
theorem malformed_schedule_raises_cex :
    is_open_now_raw badSchedule 2 600 = .error .valueError :=
  rfl

/-- Is an Except result a success. -/
def exOk {α : Type} (e : Except PyErr α) : Bool :=
  match e with
  | .ok _ => true
  | .error _ => false

/-- Well-shaped HHMM time field: a string whose first-two and
remaining-character slices both parse as ints (no range check, matching
the source, which validates nothing). -/
def wfTime (v : PyVal) : Bool :=
  match v with
  | .str s => exOk (parseIntStr (sTake2 s)) && exOk (parseIntStr (sDrop2 s))
  | _ => false

/-- Well-shaped open entry: a dict carrying a day key (any value, the
comparison is total) and a well-shaped time field. -/
def wfOpenObj (v : PyVal) : Bool :=
  match v with
  | .dict kvs =>
    (lookupStr kvs "day").isSome &&
      (match lookupStr kvs "time" with
       | some t => wfTime t
       | none => false)
  | _ => false

/-- Well-shaped period: a dict with a well-shaped open entry and, when a
close key is present, a close dict with a well-shaped time field. -/
def wfPeriod (p : PyVal) : Bool :=
  match p with
  | .dict kvs =>
    (match lookupStr kvs "open" with
     | some o => wfOpenObj o
     | none => false) &&
      (match lookupStr kvs "close" with
       | some (.dict ckvs) =>
         (match lookupStr ckvs "time" with
          | some t => wfTime t
          | none => false)
       | some _ => false
       | none => true)
  | _ => false

/-- Well-shaped schedule argument: either a falsy non-dict value, or a
dict whose periods entry, when present, is a list of well-shaped
periods. -/
def wf_schedule (oh : PyVal) : Bool :=
  match oh with
  | .dict kvs =>
    match lookupStr kvs "periods" with
    | none => true
    | some (.list items) => items.all wfPeriod
    | some _ => false
  | _ => !truthy oh

theorem timeToMin_ok_of_wf (t : PyVal) (h : wfTime t = true) :
    ∃ n, timeToMin t = .ok n := by
  match t with
  | .str s =>
    simp only [wfTime, Bool.and_eq_true] at h
    obtain ⟨h1, h2⟩ := h
    obtain ⟨a, ha⟩ : ∃ a, parseIntStr (sTake2 s) = .ok a := by
      cases he : parseIntStr (sTake2 s) with
      | ok a => exact ⟨a, rfl⟩
      | error e => rw [he] at h1; exact absurd h1 (by simp [exOk])
    obtain ⟨b, hb⟩ : ∃ b, parseIntStr (sDrop2 s) = .ok b := by
      cases he : parseIntStr (sDrop2 s) with
      | ok b => exact ⟨b, rfl⟩
      | error e => rw [he] at h2; exact absurd h2 (by simp [exOk])
    exact ⟨a * 60 + b, by simp [timeToMin, pySliceTake2, pySliceDrop2, pyToInt, ha, hb]⟩

theorem goPeriods_total (cd cm : Int) (items : List PyVal)
    (h : items.all wfPeriod = true) :
    goPeriods cd cm items = .ok "Open" ∨ goPeriods cd cm items = .ok "Closed" := by
  induction items with
  | nil => exact Or.inr rfl
  | cons period rest ih =>
    simp only [List.all_cons, Bool.and_eq_true] at h
    obtain ⟨hp, hrest⟩ := h
    have ihr := ih hrest
    match period, hp with
    | .dict kvs, hp =>
      simp only [wfPeriod, Bool.and_eq_true] at hp
      obtain ⟨hopen, hclose⟩ := hp
      cases ho : lookupStr kvs "open" with
      | none => rw [ho] at hopen; exact absurd hopen (by simp)
      | some o =>
        rw [ho] at hopen
        match o, hopen with
        | .dict okvs, hopen =>
          simp only [wfOpenObj, Bool.and_eq_true] at hopen
          obtain ⟨hday, htime⟩ := hopen
          cases hd : lookupStr okvs "day" with
          | none => rw [hd] at hday; exact absurd hday (by simp)
          | some d =>
            by_cases hdm : pyEqInt d cd = true
            · cases ht : lookupStr okvs "time" with
              | none => rw [ht] at htime; exact absurd htime (by simp)
              | some t =>
                rw [ht] at htime
                obtain ⟨ot, hot⟩ := timeToMin_ok_of_wf t htime
                cases hc : lookupStr kvs "close" with
                | none =>
                  rw [hc] at hclose
                  by_cases hcm : cm ≥ ot
                  · exact Or.inl (by
                      simp [goPeriods, getItemStr, ho, hd, ht, hdm, hot,
                        pyContains, hc, hcm])
                  · have : goPeriods cd cm (PyVal.dict kvs :: rest) =
                        goPeriods cd cm rest := by
                      simp [goPeriods, getItemStr, ho, hd, ht, hdm, hot,
                        pyContains, hc, hcm]
                    rw [this]; exact ihr
                | some c =>
                  rw [hc] at hclose
                  match c, hclose with
                  | .dict ckvs, hclose =>
                    have hclose2 : (match lookupStr ckvs "time" with
                        | some u => wfTime u
                        | none => false) = true := hclose
                    cases hct : lookupStr ckvs "time" with
                    | none => rw [hct] at hclose2; exact absurd hclose2 (by simp)
                    | some tc =>
                      rw [hct] at hclose2
                      obtain ⟨ct, hctm⟩ := timeToMin_ok_of_wf tc hclose2
                      by_cases hcond : ot ≤ cm ∧ cm < ct
                      · exact Or.inl (by
                          simp [goPeriods, getItemStr, ho, hd, ht, hdm, hot,
                            pyContains, hc, hct, hctm, hcond])
                      · have : goPeriods cd cm (PyVal.dict kvs :: rest) =
                            goPeriods cd cm rest := by
                          simp [goPeriods, getItemStr, ho, hd, ht, hdm, hot,
                            pyContains, hc, hct, hctm, hcond]
                        rw [this]; exact ihr
            · have : goPeriods cd cm (PyVal.dict kvs :: rest) =
                  goPeriods cd cm rest := by
                simp [goPeriods, getItemStr, ho, hd, hdm]
              rw [this]; exact ihr

/-- C6 amended: the evaluator absorbs a falsy schedule or a missing
periods key as Unknown and, on any well-shaped schedule, always returns
one of the three statuses even for minute or day values far outside
0 to 1439 (no validation, only total comparisons); but a structurally
malformed period, as in the counterexample, raises instead of yielding
Unknown. -/
theorem is_open_now_raw_total (oh : PyVal) (cd cm : Int)
    (h : wf_schedule oh = true) :
    is_open_now_raw oh cd cm = .ok "Open" ∨
      is_open_now_raw oh cd cm = .ok "Closed" ∨
      is_open_now_raw oh cd cm = .ok "Unknown" := by
  match oh with
  | .pyNone => exact Or.inr (Or.inr rfl)
  | .int n =>
    have ht : truthy (.int n) = false := by
      simpa [wf_schedule] using h
    exact Or.inr (Or.inr (by simp [is_open_now_raw, ht]))
  | .str s =>
    have ht : truthy (.str s) = false := by
      simpa [wf_schedule] using h
    exact Or.inr (Or.inr (by simp [is_open_now_raw, ht]))
  | .list l =>
    have ht : truthy (.list l) = false := by
      simpa [wf_schedule] using h
    exact Or.inr (Or.inr (by simp [is_open_now_raw, ht]))
  | .dict kvs =>
    by_cases ht : truthy (.dict kvs) = false
    · exact Or.inr (Or.inr (by simp [is_open_now_raw, ht]))
    · cases hp : lookupStr kvs "periods" with
      | none =>
        exact Or.inr (Or.inr (by
          simp [is_open_now_raw, ht, pyContains, hp]))
      | some pv =>
        rw [wf_schedule] at h
        rw [hp] at h
        match pv, h with
        | .list items, h =>
          have : is_open_now_raw (.dict kvs) cd cm = goPeriods cd cm items := by
            simp [is_open_now_raw, ht, pyContains, hp, getItemStr, toIter]
          rw [this]
          rcases goPeriods_total cd cm items h with ho | hc
          · exact Or.inl ho
          · exact Or.inr (Or.inl hc)

/-- Witness for is_open_now_raw_total: a well-shaped one-period schedule
queried at the out-of-range minute 5000 still returns a status. -/
theorem is_open_now_raw_total_witness :
    is_open_now_raw (.dict [("periods",
        .list [.dict [("open", .dict [("day", .int 2), ("time", .str "0900")]),
          ("close", .dict [("time", .str "1800")])]])]) 2 5000 = .ok "Open" ∨
      is_open_now_raw (.dict [("periods",
        .list [.dict [("open", .dict [("day", .int 2), ("time", .str "0900")]),
          ("close", .dict [("time", .str "1800")])]])]) 2 5000 = .ok "Closed" ∨
      is_open_now_raw (.dict [("periods",
        .list [.dict [("open", .dict [("day", .int 2), ("time", .str "0900")]),
          ("close", .dict [("time", .str "1800")])]])]) 2 5000 = .ok "Unknown" :=
  is_open_now_raw_total _ 2 5000 (by decide)

/-- The fixed category fan-out order of get_nearby_food_places. -/
def food_types : List String :=
  ["restaurant", "cafe", "bakery", "bar", "meal_takeaway", "meal_delivery"]

/-- A place candidate as the aggregator handles it: the stable id and the
name (the remaining fields play no role in aggregation). -/
structure PlaceCandidate where
  place_id : String
  name : String
deriving DecidableEq, Repr

/-- The per-category error report emitted by the source via st.error. -/
def fetch_message (t e : String) : String :=
  "Error fetching " ++ t ++ " places: " ++ e

/-- The category loop of get_nearby_food_places: each category is fetched
inside its own try block; a success extends the places list, a failure
appends an error report and the loop continues with the next category. -/
def aggregateLoop (fetch : String → Except String (List PlaceCandidate)) :
    List String → List PlaceCandidate × List String
  | [] => ([], [])
  | t :: rest =>
    let r := aggregateLoop fetch rest
    match fetch t with
    | .ok rs => (rs ++ r.1, r.2)
    | .error e => (r.1, fetch_message t e :: r.2)

/-- Embedding of get_nearby_food_places: the external per-category search
is the fetch argument, and the result is the accumulated places together
with the error reports. -/
def get_nearby_food_places
    (fetch : String → Except String (List PlaceCandidate)) :
    List PlaceCandidate × List String :=
  aggregateLoop fetch food_types

theorem aggregateLoop_spec (fetch : String → Except String (List PlaceCandidate))
    (ts : List String) :
    aggregateLoop fetch ts =
      ((ts.map (fun t => match fetch t with
          | .ok rs => rs
          | .error _ => [])).flatten,
        ts.filterMap (fun t => match fetch t with
          | .ok _ => none
          | .error e => some (fetch_message t e))) := by
  induction ts with
  | nil => rfl
  | cons t rest ih =>
    cases hf : fetch t with
    | ok rs => simp [aggregateLoop, hf, ih]
    | error e => simp [aggregateLoop, hf, ih]

/-- C8: for every per-category fetch outcome, the aggregation never
aborts: its places are exactly the concatenation, in category
enumeration order, of the results of every successful category (so a
failed category contributes zero candidates and categories before and
after it are all collected), and every failed category is reported with
its error message. -/
theorem get_nearby_food_places_partial_failure
    (fetch : String → Except String (List PlaceCandidate)) :
    (get_nearby_food_places fetch).1 =
        (food_types.map (fun t => match fetch t with
          | .ok rs => rs
          | .error _ => [])).flatten ∧
      (get_nearby_food_places fetch).2 =
        food_types.filterMap (fun t => match fetch t with
          | .ok _ => none
          | .error e => some (fetch_message t e)) := by
  rw [get_nearby_food_places, aggregateLoop_spec]
  exact ⟨rfl, rfl⟩

def cand1 : PlaceCandidate := ⟨"1", "P1"⟩

def cand2 : PlaceCandidate := ⟨"2", "P2"⟩

def cand3 : PlaceCandidate := ⟨"3", "P3"⟩

/-- A fetch outcome with two overlapping categories: restaurant finds
candidates 1 and 2, cafe finds candidates 2 and 3, every other category
is empty. -/
def twoCategoryFetch : String → Except String (List PlaceCandidate) :=
  fun t =>
    if t = "restaurant" then .ok [cand1, cand2]
    else if t = "cafe" then .ok [cand2, cand3]
    else .ok []

/-- C3 counterexample: with restaurant finding ids 1, 2 and cafe finding
ids 2, 3, the aggregated list is 1, 2, 2, 3 with the id 2 duplicated,
not the deduplicated 1, 2, 3 the claim demands. -/
theorem aggregate_dup_ids_cex :
    (get_nearby_food_places twoCategoryFetch).1 = [cand1, cand2, cand2, cand3] ∧
      ¬ ((get_nearby_food_places twoCategoryFetch).1.map
          PlaceCandidate.place_id).Nodup := by
  exact ⟨rfl, by decide⟩

/-- C3 amended: the aggregator concatenates the per-category result lists
in enumeration order without any id deduplication, so a candidate found
by two categories appears twice; the only deduplication downstream is by
the name and distance pair when the data frame is built. -/
theorem aggregate_concat_keeps_duplicates :
    (get_nearby_food_places twoCategoryFetch).1.map PlaceCandidate.place_id =
      ["1", "2", "2", "3"] :=
  rfl

/-- A review as the selector handles it: rating and text. -/
structure Review where
  rating : Int
  text : String
deriving DecidableEq, Repr

/-- Python list slice l drop-all-but-last-3, the meaning of a minus-three
tail slice: the whole list when it has at most three elements. -/
def pyTail3 {α : Type} (l : List α) : List α := l.drop (l.length - 3)

/-- Embedding of the review block of main: sort the reviews by rating
descending (Python sorted with reverse true is stable, as is
insertionSort with this reflexive relation), then positive is the first
three of the ratings at least 4 and negative is the tail slice of the
ratings at most 2. -/
def select_reviews (reviews : List Review) : List Review × List Review :=
  let sorted := List.insertionSort (fun a b => b.rating ≤ a.rating) reviews
  ((sorted.filter (fun r => 4 ≤ r.rating)).take 3,
    pyTail3 (sorted.filter (fun r => r.rating ≤ 2)))

/-- The review list of section 8 of the specification, ratings 5 down
to 1. -/
def demoReviews : List Review :=
  [⟨5, "a"⟩, ⟨4, "b"⟩, ⟨3, "c"⟩, ⟨2, "d"⟩, ⟨1, "e"⟩]

/-- C4 counterexample: on ratings 5, 4, 3, 2, 1 the positive side is the
claimed 5 then 4, but the negative side is not the singleton rating-1
review: the band of ratings at most 2 holds both the rating-2 and the
rating-1 review and the tail slice keeps both. -/
theorem review_selector_negative_cex :
    (select_reviews demoReviews).1 = [⟨5, "a"⟩, ⟨4, "b"⟩] ∧
      (select_reviews demoReviews).2 ≠ [⟨1, "e"⟩] :=
  ⟨rfl, by decide⟩

/-- C4 amended: on ratings 5, 4, 3, 2, 1 the selector returns positive 5
then 4 and negative 2 then 1, the whole low band in descending order,
since the tail slice of a two-element list is the list itself. -/
theorem review_selector_demo :
    select_reviews demoReviews = ([⟨5, "a"⟩, ⟨4, "b"⟩], [⟨2, "d"⟩, ⟨1, "e"⟩]) :=
  rfl

/-- A display row, one entry of place_data in main: name, the Rating
column after pd.to_numeric (none for a coercion failure, where the
source had the N/A placeholder), the price glyph string, the joined
types string, the distance text, the open status string, the place id
and the review count. -/
structure DisplayRow where
  name : String
  rating : Option Rat
  price : String
  rowType : String
  distance : String
  openNow : String
  placeId : String
  reviews : Int
deriving DecidableEq, Repr

/-- Embedding of the Price Level cell expression of the row builder:
dollar sign repeated price_level times, where the empty string produced
by a zero or defaulted level falls back to the N/A placeholder through
the Python or. -/
def price_level_str (priceLevel : Option Nat) : String :=
  let s := String.mk (List.replicate (priceLevel.getD 0) '$')
  if s = "" then "N/A" else s

/-- Embedding of the Type cell expression: types joined with a comma and
space, empty join replaced by the N/A placeholder. -/
def types_str (types : List String) : String :=
  let s := String.intercalate ", " types
  if s = "" then "N/A" else s

/-- Embedding of the dict literal appended to place_data in main for one
candidate and its detail record. -/
def build_row (name : String) (rating : Option Rat) (priceLevel : Option Nat)
    (types : List String) (distance openNow placeId : String)
    (reviews : Int) : DisplayRow :=
  { name := name, rating := rating, price := price_level_str priceLevel,
    rowType := types_str types, distance := distance, openNow := openNow,
    placeId := placeId, reviews := reviews }

/-- C9: a detail record with price level n at least 1 renders n dollar
signs, and price level 0 and an absent price level both render the N/A
placeholder, making them indistinguishable in the output. -/
theorem price_glyphs_spec (n : Nat) (h : 1 ≤ n) (name : String)
    (rating : Option Rat) (types : List String)
    (distance openNow placeId : String) (reviews : Int) :
    (build_row name rating (some n) types distance openNow placeId
        reviews).price = String.mk (List.replicate n '$') ∧
      (build_row name rating (some 0) types distance openNow placeId
        reviews).price = "N/A" ∧
      (build_row name rating none types distance openNow placeId
        reviews).price = "N/A" := by
  refine ⟨?_, rfl, rfl⟩
  obtain ⟨m, rfl⟩ : ∃ m, n = m + 1 := ⟨n - 1, by omega⟩
  have hne : String.mk (List.replicate (m + 1) '$') ≠ "" := by
    intro hcontr
    have hdata : List.replicate (m + 1) '$' = [] := congrArg String.data hcontr
    simp at hdata
  simp [build_row, price_level_str, hne]

/-- Witness for price_glyphs_spec: price level 3 renders three dollar
signs and an absent price level renders the placeholder. -/
theorem price_glyphs_spec_witness :
    (build_row "X" none (some 3) [] "N/A" "Unknown" "id" 0).price = "$$$" ∧
      (build_row "X" none none [] "N/A" "Unknown" "id" 0).price = "N/A" := by
  have h := price_glyphs_spec 3 (by decide) "X" none [] "N/A" "Unknown" "id" 0
  exact ⟨by rw [h.1]; decide, h.2.2⟩

/-- Code point lexicographic comparison of two character lists, the
order Python applies to strings and pandas to a string column. -/
def charListLe : List Char → List Char → Bool
  | [], _ => true
  | _ :: _, [] => false
  | a :: as, b :: bs =>
    if a.toNat < b.toNat then true
    else if b.toNat < a.toNat then false
    else charListLe as bs

theorem charListLe_total : ∀ as bs : List Char,
    charListLe as bs = true ∨ charListLe bs as = true
  | [], _ => Or.inl rfl
  | _ :: _, [] => Or.inr rfl
  | a :: as, b :: bs => by
    by_cases hab : a.toNat < b.toNat
    · exact Or.inl (by simp [charListLe, hab])
    · by_cases hba : b.toNat < a.toNat
      · exact Or.inr (by simp [charListLe, hba])
      · rcases charListLe_total as bs with h | h
        · exact Or.inl (by simp [charListLe, hab, hba, h])
        · exact Or.inr (by simp [charListLe, hab, hba, h])

theorem charListLe_trans : ∀ as bs cs : List Char,
    charListLe as bs = true → charListLe bs cs = true →
      charListLe as cs = true
  | [], _, _, _, _ => rfl
  | _ :: _, [], _, h1, _ => by simp [charListLe] at h1
  | _ :: _, _ :: _, [], _, h2 => by simp [charListLe] at h2
  | a :: as, b :: bs, c :: cs, h1, h2 => by
    simp only [charListLe] at h1 h2 ⊢
    rcases Nat.lt_trichotomy a.toNat b.toNat with hab | hab | hab
    · rcases Nat.lt_trichotomy b.toNat c.toNat with hbc | hbc | hbc
      · simp [show a.toNat < c.toNat from Nat.lt_trans hab hbc]
      · simp [show a.toNat < c.toNat by omega]
      · simp [Nat.lt_asymm hbc, hbc] at h2
    · rcases Nat.lt_trichotomy b.toNat c.toNat with hbc | hbc | hbc
      · simp [show a.toNat < c.toNat by omega]
      · simp only [hab, Nat.lt_irrefl, if_false] at h1
        simp only [hbc, Nat.lt_irrefl, if_false] at h2
        have hac : a.toNat = c.toNat := by omega
        simp only [hac, Nat.lt_irrefl, if_false]
        exact charListLe_trans as bs cs h1 h2
      · simp [Nat.lt_asymm hbc, hbc] at h2
    · simp [Nat.lt_asymm hab, hab] at h1

/-- Ascending order on the distance text of two rows, by code point
lexicographic comparison: exactly how pandas orders the entries of the
Distance column of strings when sort_values runs on it. -/
def distLe (a b : DisplayRow) : Prop :=
  charListLe a.distance.data b.distance.data = true

instance : DecidableRel distLe :=
  fun a b =>
    inferInstanceAs (Decidable (charListLe a.distance.data b.distance.data = true))

instance : IsTotal DisplayRow distLe :=
  ⟨fun a b => charListLe_total a.distance.data b.distance.data⟩

instance : IsTrans DisplayRow distLe :=
  ⟨fun a b c => charListLe_trans a.distance.data b.distance.data c.distance.data⟩

/-- Embedding of the Distance branch of the sort stage: sort_values on
the Distance column of formatted strings.  Ties are modeled with a
stable sort; the theorems below do not depend on tie order. -/
def sort_by_distance (rows : List DisplayRow) : List DisplayRow :=
  List.insertionSort distLe rows

def row850 : DisplayRow :=
  { name := "A", rating := some 4, price := "$", rowType := "restaurant",
    distance := "850 m", openNow := "Open", placeId := "a", reviews := 10 }

def row1200 : DisplayRow :=
  { name := "B", rating := some 4, price := "$", rowType := "restaurant",
    distance := "1.2 km", openNow := "Open", placeId := "b", reviews := 5 }

/-- C5 counterexample: the row whose distance text is 1.2 km, twelve
hundred meters, sorts before the row whose distance text is 850 m,
because the digit 1 precedes the digit 8 in code point order; the claim
demanded the 850 m row first. -/
theorem distance_sort_cex :
    sort_by_distance [row850, row1200] = [row1200, row850] ∧
      row850.distance = "850 m" ∧ row1200.distance = "1.2 km" := by
  refine ⟨?_, rfl, rfl⟩
  decide

/-- C5 amended: the Distance sort orders rows ascending by code point
lexicographic comparison of the distance text strings, as a permutation
of the input, not by the numeric magnitude embedded in them. -/
theorem sort_by_distance_lex (rows : List DisplayRow) :
    List.Sorted distLe (sort_by_distance rows) ∧
      (sort_by_distance rows).Perm rows :=
  ⟨List.sorted_insertionSort distLe rows, List.perm_insertionSort distLe rows⟩

/-- Ascending order on the glyph count of the price cell, the int column
the source sorts on after replacing Price Level with its string
length. -/
def priceLenLe (a b : DisplayRow) : Prop := a.price.length ≤ b.price.length

instance : DecidableRel priceLenLe :=
  fun a b => inferInstanceAs (Decidable (a.price.length ≤ b.price.length))

instance : IsTotal DisplayRow priceLenLe :=
  ⟨fun a b => Nat.le_total a.price.length b.price.length⟩

instance : IsTrans DisplayRow priceLenLe :=
  ⟨fun _ _ _ h1 h2 => Nat.le_trans h1 h2⟩

/-- Embedding of the Price Level branch of the sort stage: the source
overwrites the Price Level column with its string lengths, sorts on that
int column, then maps each length x back to x dollar signs (the guard
comparing the int x against the N/A string is always true, so the else
branch is dead).  Composing the overwrite with the sort is the same as
sorting on the length key and then overwriting, which is what this
definition does. -/
def price_level_sort (rows : List DisplayRow) : List DisplayRow :=
  (List.insertionSort priceLenLe rows).map
    (fun r => { r with price := String.mk (List.replicate r.price.length '$') })

/-- C10: the Price Level sort rewrites every price field to dollar signs
repeated the length of its previous value, so the output is a
permutation of the rewritten rows rather than of the originals, and in
particular a row whose price was the three-character N/A placeholder is
emitted with three dollar signs. -/
theorem price_level_sort_rewrites (rows : List DisplayRow) (r : DisplayRow)
    (hr : r ∈ rows) (hp : r.price = "N/A") :
    (price_level_sort rows).Perm
        (rows.map (fun x =>
          { x with price := String.mk (List.replicate x.price.length '$') })) ∧
      { r with price := "$$$" } ∈ price_level_sort rows := by
  constructor
  · exact (List.perm_insertionSort priceLenLe rows).map _
  · rw [price_level_sort]
    refine List.mem_map.mpr
      ⟨r, (List.mem_insertionSort priceLenLe).mpr hr, ?_⟩
    show ({ r with price := String.mk (List.replicate r.price.length '$') }
        : DisplayRow) = { r with price := "$$$" }
    have hstr : String.mk (List.replicate ("N/A" : String).length '$') = "$$$" := by
      decide
    rw [hp, hstr]

def rowNA : DisplayRow :=
  { name := "C", rating := none, price := "N/A", rowType := "cafe",
    distance := "1 km", openNow := "Unknown", placeId := "c", reviews := 0 }

/-- Witness for price_level_sort_rewrites: a single row with the N/A
price placeholder comes out of the Price Level sort with three dollar
signs. -/
theorem price_level_sort_rewrites_witness :
    (price_level_sort [rowNA]).Perm
        ([rowNA].map (fun x =>
          { x with price := String.mk (List.replicate x.price.length '$') })) ∧
      { rowNA with price := "$$$" } ∈ price_level_sort [rowNA] :=
  price_level_sort_rewrites [rowNA] rowNA (by decide) rfl

end FoodApp
